import Mathlib

/-!
Verification development for the lite-jvm-rust virtual machine.

This file gives a shallow embedding, in Lean 4, of the parts of the
interpreter, class loader, static area and heap of the `lite_jvm` crate
that the specification's claims are about, and proves or refutes each
claim against that embedding.

Modelling conventions:
* Rust `i32` / `i64` values are represented as unbounded `Int` together
  with explicit two's-complement wrapping / reinterpretation helpers
  (`wrap32`, `toUnsigned32`, `toSigned32`, ...) applied exactly where the
  source performs a wrapping or reinterpreting operation.
* Rust `f32` / `f64` values are represented by `FloatV := Option ℚ`,
  where `none` stands for NaN (infinities are outside this model; every
  concrete float appearing in a theorem below is a small finite value on
  which IEEE-754 arithmetic is exact).
* `Vec`-based stacks are represented as Lean lists stored top-first
  (the source `Vec` keeps the top of the stack last; `push`/`pop` at the
  head of the list are the mirror image of `push`/`pop` at the end of the
  `Vec`).
* Heap object identity is represented by a natural-number handle; the
  source's bump allocators hand out strictly increasing addresses, which
  the model mirrors with a strictly increasing handle counter.
-/

namespace LiteJvm

/-- Model of an `f32`/`f64` value: `some q` is the finite value `q`,
`none` is NaN. -/
abbrev FloatV := Option ℚ

/-- `jvm_values.rs` – `enum Value`. Object and array references are
represented by their heap handle. -/
inductive Value where
  | uninitialized : Value
  | int (v : ℤ) : Value
  | long (v : ℤ) : Value
  | float (v : FloatV) : Value
  | double (v : FloatV) : Value
  | returnAddress (v : ℕ) : Value
  | objectRef (h : ℕ) : Value
  | arrayRef (h : ℕ) : Value
  | null : Value
deriving DecidableEq, Repr

/-- `jvm_error.rs` – `enum VmError` (the variants reachable from the
embedded code). -/
inductive VmError where
  | classFormatError : VmError
  | valueTypeMissMatch : VmError
  | indexOutOfBounds : VmError
  | popFromEmptyStack : VmError
  | stackOverFlow : VmError
  | arithmeticException : VmError
  | invalidOffset (off : ℕ) : VmError
  | executeCodeError (msg : String) : VmError
  | fieldNotFoundException (name : String) : VmError
deriving DecidableEq, Repr

/-- `java_exception.rs` – `enum MethodCallError`: either an internal VM
error or a thrown Java exception object (by handle). -/
inductive MethodCallError where
  | internalError (e : VmError) : MethodCallError
  | exceptionThrown (h : ℕ) : MethodCallError
deriving DecidableEq, Repr

/-- `stack_frame.rs` – `enum InstructionResult`. -/
inductive InstructionResult where
  | returnFromMethod (v : Option Value) : InstructionResult
  | continueMethodExecution : InstructionResult
deriving DecidableEq, Repr

/-- `operand_stack.rs` – `struct OperandStack`. The source stores the
stack in a `Vec` with the top last and uses `Vec::with_capacity
(max_size)`; here the list keeps the top element first and the capacity
is recorded explicitly. -/
structure OperandStack where
  capacity : ℕ
  stack : List Value
deriving DecidableEq, Repr

/-- `OperandStack::new(max_size)`. -/
def OperandStack.new (maxSize : ℕ) : OperandStack := ⟨maxSize, []⟩

/-- `OperandStack::push`: fails with `StackOverFlow` when the stack
already holds `capacity` values. -/
def OperandStack.push (s : OperandStack) (v : Value) : Except VmError OperandStack :=
  if s.stack.length < s.capacity then .ok ⟨s.capacity, v :: s.stack⟩
  else .error .stackOverFlow

/-- `OperandStack::pop`: fails with `PopFromEmptyStack` on an empty
stack. -/
def OperandStack.pop (s : OperandStack) : Except VmError (Value × OperandStack) :=
  match s.stack with
  | [] => .error .popFromEmptyStack
  | v :: rest => .ok (v, ⟨s.capacity, rest⟩)

/-- `OperandStack::pop_n(n)`: pops `n` values; the first value popped
ends up last in the returned vector (`vec[n - i] = self.pop()?`). -/
def OperandStack.popN (s : OperandStack) (n : ℕ) : Except VmError (List Value × OperandStack) :=
  match n with
  | 0 => .ok ([], s)
  | m + 1 =>
    match s.pop with
    | .error e => .error e
    | .ok (v, s1) =>
      match s1.popN m with
      | .error e => .error e
      | .ok (vs, s2) => .ok (vs ++ [v], s2)

/-! ## Two's-complement helpers -/

/-- Reinterpret an integer as an unsigned 32-bit value (the bit pattern
of the `i32`, as a non-negative integer). -/
def toUnsigned32 (v : ℤ) : ℤ := v % (2 ^ 32)

/-- Reinterpret an unsigned 32-bit bit pattern as an `i32`. -/
def toSigned32 (v : ℤ) : ℤ := if v < 2 ^ 31 then v else v - 2 ^ 32

/-- Wrap an integer into the `i32` range (two's complement). -/
def wrap32 (v : ℤ) : ℤ := toSigned32 (toUnsigned32 v)

/-- Reinterpret an integer as an unsigned 64-bit value. -/
def toUnsigned64 (v : ℤ) : ℤ := v % (2 ^ 64)

/-- Reinterpret an unsigned 64-bit bit pattern as an `i64`. -/
def toSigned64 (v : ℤ) : ℤ := if v < 2 ^ 63 then v else v - 2 ^ 64

/-- Rust `x & 0x1f` on an `i32` shift count: the low five bits, i.e.
the count modulo 32. -/
def maskShift5 (v : ℤ) : ℕ := (v % 32).toNat

/-- Rust arithmetic right shift on a signed value: floor division by a
power of two. -/
def arithShr (v : ℤ) (k : ℕ) : ℤ := Int.fdiv v (2 ^ k)

/-! ## Arithmetic instruction evaluators (`stack_frame.rs`,
`execute_instruction`) -/

/-- The `Idiv` evaluator closure: `0 => Err(InternalError
(ArithmeticException)), _ => Ok(i1 / i2)` (Rust `/` on `i32` truncates
toward zero; the `i32::MIN / -1` overflow panic is outside the claims
and not modelled). -/
def idivEval (i1 i2 : ℤ) : Except MethodCallError ℤ :=
  if i2 = 0 then .error (.internalError .arithmeticException)
  else .ok (Int.tdiv i1 i2)

/-- The `Irem` evaluator closure (Rust `%` truncating remainder). -/
def iremEval (i1 i2 : ℤ) : Except MethodCallError ℤ :=
  if i2 = 0 then .error (.internalError .arithmeticException)
  else .ok (Int.tmod i1 i2)

/-- The `Ldiv` evaluator closure. -/
def ldivEval (l1 l2 : ℤ) : Except MethodCallError ℤ :=
  if l2 = 0 then .error (.internalError .arithmeticException)
  else .ok (Int.tdiv l1 l2)

/-- The `Lrem` evaluator closure. -/
def lremEval (l1 l2 : ℤ) : Except MethodCallError ℤ :=
  if l2 = 0 then .error (.internalError .arithmeticException)
  else .ok (Int.tmod l1 l2)

/-- The `Ishl` closure `i1 << (i2 & 0x1f)`: a left shift on `i32`
discards the bits shifted out (two's-complement wrap). -/
def ishlEval (i1 i2 : ℤ) : Except MethodCallError ℤ :=
  .ok (wrap32 (i1 * 2 ^ maskShift5 i2))

/-- The `Ishr` closure `i1 >> (i2 & 0x1f)` (arithmetic shift). -/
def ishrEval (i1 i2 : ℤ) : Except MethodCallError ℤ :=
  .ok (arithShr i1 (maskShift5 i2))

/-- The `Iushr` closure: `if i1 > 0 { i1 >> (i2 & 0x1f) } else
{ ((i1 as u32) >> (i2 & 0x1f)) as i32 }`. -/
def iushrEval (i1 i2 : ℤ) : Except MethodCallError ℤ :=
  .ok (if 0 < i1 then arithShr i1 (maskShift5 i2)
       else toSigned32 (toUnsigned32 i1 / 2 ^ maskShift5 i2))

/-- The `Lushr` closure: `if l1 > 0 { l1 >> (l2 & 0x1f) } else
{ ((l1 as u64) >> (l2 & 0x1f)) as i64 }`. Note that the shift count is
masked with `0x1f` (31), exactly as in the source. -/
def lushrEval (l1 l2 : ℤ) : Except VmError ℤ :=
  .ok (if 0 < l1 then arithShr l1 (maskShift5 l2)
       else toSigned64 (toUnsigned64 l1 / 2 ^ maskShift5 l2))

/-- The spec's `lushr`: mask the count by 63 and shift the 64-bit
operand logically (treating it as unsigned). Stated from the spec's
words, for comparison with `lushrEval`. -/
def specLushr (l1 l2 : ℤ) : ℤ :=
  toSigned64 (toUnsigned64 l1 / 2 ^ ((l2 % 64).toNat))

/-! ## Float comparison (`generate_cmp`) -/

/-- IEEE subtraction on the float model: NaN propagates. -/
def fsub (a b : FloatV) : FloatV :=
  match a, b with
  | some x, some y => some (x - y)
  | _, _ => none

/-- `result > 0` on the float model: false when the result is NaN. -/
def fgtZero (a : FloatV) : Bool :=
  match a with
  | some x => 0 < x
  | none => false

/-- `result < 0` on the float model: false when the result is NaN. -/
def fltZero (a : FloatV) : Bool :=
  match a with
  | some x => x < 0
  | none => false

/-- `generate_cmp` body: compute `val1 - val2` and push
`greater_result`, `0 - greater_result` or `0` depending on its sign
(NaN falls into the final `else` and yields `0`). -/
def cmpValue (greaterResult : ℤ) (val1 val2 : FloatV) : ℤ :=
  let result := fsub val1 val2
  if fgtZero result then greaterResult
  else if fltZero result then 0 - greaterResult
  else 0

/-- The spec's `fcmpg`/`dcmpg`: 1 when either operand is NaN, else the
sign of the comparison. Stated from the spec's words. -/
def specCmpg (val1 val2 : FloatV) : ℤ :=
  match val1, val2 with
  | some x, some y => if x > y then 1 else if x < y then -1 else 0
  | _, _ => 1

/-- The spec's `fcmpl`/`dcmpl`: -1 when either operand is NaN, else the
sign of the comparison. Stated from the spec's words. -/
def specCmpl (val1 val2 : FloatV) : ℤ :=
  match val1, val2 with
  | some x, some y => if x > y then 1 else if x < y then -1 else 0
  | _, _ => -1

/-! ## Exception tables and the dispatch loop (`stack_frame.rs`,
`StackFrame::execute`; `runtime_attribute_info.rs`, `ExceptionTable`) -/

/-- `runtime_attribute_info.rs` – `struct ExceptionTable`. -/
structure ExceptionTable where
  start_pc : ℕ
  end_pc : ℕ
  handler_pc : ℕ
  catch_type : Option String
deriving DecidableEq, Repr

/-- Modelled from the spec: `ExceptionTable::catch_line` is called in
`StackFrame::execute` but its body is not part of the sources at hand
(only this caller is); per the spec the entry matches when the half-open
range `[start_pc, end_pc)` contains the throwing instruction's pc. Note
the method receives only the pc. -/
def ExceptionTable.catch_line (t : ExceptionTable) (pc : ℕ) : Bool :=
  decide (t.start_pc ≤ pc) && decide (pc < t.end_pc)

/-- Class table: for each class name, the (optional) super-class name
and the directly implemented interface names, mirroring the resolved
`super_class` / `interfaces` fields of `loaded_class.rs` – `Class`. -/
abbrev ClassTable := List (String × Option String × List String)

/-- `loaded_class.rs` – `Class::is_subclass_of`: true when the name
matches, the target is a directly recorded interface, or the super
chain matches. `fuel` bounds the recursion depth (the source recurses
through arena references; any chain longer than `fuel` is out of the
model). -/
def isSubclassOf (ct : ClassTable) : ℕ → String → String → Bool
  | 0, _, _ => false
  | fuel + 1, self, target =>
    self = target ||
      match ct.lookup self with
      | some (sup, intfs) =>
        intfs.contains target ||
          (match sup with
           | some s => isSubclassOf ct fuel s target
           | none => false)
      | none => false

/-- Heap classes: class name of each allocated object handle. -/
abbrev HeapClasses := List (ℕ × String)

/-- The pure-stack instructions needed by the claims (a subset of
`class_file_reader`'s `Instruction`). -/
inductive Instr where
  | idiv : Instr
  | irem : Instr
  | ldiv : Instr
  | lrem : Instr
  | ishl : Instr
  | ishr : Instr
  | iushr : Instr
  | lshl : Instr
  | lshr : Instr
  | lushr : Instr
  | fcmpl : Instr
  | fcmpg : Instr
  | dcmpl : Instr
  | dcmpg : Instr
  | athrow : Instr
deriving DecidableEq, Repr

/-- `generate_math` for `Int`: pop `val2`, pop `val1` (each must be an
`Int`, else `InternalError(ValueTypeMissMatch)`), run the evaluator,
push the result. State-passing: the returned stack reflects the pops
already performed when an error occurs, as the source mutates
`self.op_stack` in place. -/
def execIntMath (f : ℤ → ℤ → Except MethodCallError ℤ) (s : OperandStack) :
    Except MethodCallError InstructionResult × OperandStack :=
  match s.pop with
  | .error e => (.error (.internalError e), s)
  | .ok (v2, s1) =>
    match v2 with
    | .int i2 =>
      match s1.pop with
      | .error e => (.error (.internalError e), s1)
      | .ok (v1, s2) =>
        match v1 with
        | .int i1 =>
          match f i1 i2 with
          | .error e => (.error e, s2)
          | .ok r =>
            match s2.push (.int r) with
            | .ok s3 => (.ok .continueMethodExecution, s3)
            | .error e => (.error (.internalError e), s2)
        | _ => (.error (.internalError .valueTypeMissMatch), s2)
    | _ => (.error (.internalError .valueTypeMissMatch), s1)

/-- `generate_math` for `Long` (same shape as `execIntMath`). -/
def execLongMath (f : ℤ → ℤ → Except MethodCallError ℤ) (s : OperandStack) :
    Except MethodCallError InstructionResult × OperandStack :=
  match s.pop with
  | .error e => (.error (.internalError e), s)
  | .ok (v2, s1) =>
    match v2 with
    | .long l2 =>
      match s1.pop with
      | .error e => (.error (.internalError e), s1)
      | .ok (v1, s2) =>
        match v1 with
        | .long l1 =>
          match f l1 l2 with
          | .error e => (.error e, s2)
          | .ok r =>
            match s2.push (.long r) with
            | .ok s3 => (.ok .continueMethodExecution, s3)
            | .error e => (.error (.internalError e), s2)
        | _ => (.error (.internalError .valueTypeMissMatch), s2)
    | _ => (.error (.internalError .valueTypeMissMatch), s1)

/-- `StackFrame::exec_long_shift`: pop an `Int` count, pop a `Long`
value, run the evaluator, push a `Long`. -/
def execLongShift (f : ℤ → ℤ → Except VmError ℤ) (s : OperandStack) :
    Except MethodCallError InstructionResult × OperandStack :=
  match s.pop with
  | .error e => (.error (.internalError e), s)
  | .ok (v2, s1) =>
    match v2 with
    | .int i2 =>
      match s1.pop with
      | .error e => (.error (.internalError e), s1)
      | .ok (v1, s2) =>
        match v1 with
        | .long l1 =>
          match f l1 i2 with
          | .error e => (.error (.internalError e), s2)
          | .ok r =>
            match s2.push (.long r) with
            | .ok s3 => (.ok .continueMethodExecution, s3)
            | .error e => (.error (.internalError e), s2)
        | _ => (.error (.internalError .valueTypeMissMatch), s2)
    | _ => (.error (.internalError .valueTypeMissMatch), s1)

/-- `generate_cmp` instantiated at `Float`: pop `val2`, pop `val1`,
push the comparison value (see `cmpValue`). -/
def execFcmp (greaterResult : ℤ) (s : OperandStack) :
    Except MethodCallError InstructionResult × OperandStack :=
  match s.pop with
  | .error e => (.error (.internalError e), s)
  | .ok (v2, s1) =>
    match v2 with
    | .float f2 =>
      match s1.pop with
      | .error e => (.error (.internalError e), s1)
      | .ok (v1, s2) =>
        match v1 with
        | .float f1 =>
          match s2.push (.int (cmpValue greaterResult f1 f2)) with
          | .ok s3 => (.ok .continueMethodExecution, s3)
          | .error e => (.error (.internalError e), s2)
        | _ => (.error (.internalError .valueTypeMissMatch), s2)
    | _ => (.error (.internalError .valueTypeMissMatch), s1)

/-- `generate_cmp` instantiated at `Double`. -/
def execDcmp (greaterResult : ℤ) (s : OperandStack) :
    Except MethodCallError InstructionResult × OperandStack :=
  match s.pop with
  | .error e => (.error (.internalError e), s)
  | .ok (v2, s1) =>
    match v2 with
    | .double f2 =>
      match s1.pop with
      | .error e => (.error (.internalError e), s1)
      | .ok (v1, s2) =>
        match v1 with
        | .double f1 =>
          match s2.push (.int (cmpValue greaterResult f1 f2)) with
          | .ok s3 => (.ok .continueMethodExecution, s3)
          | .error e => (.error (.internalError e), s2)
        | _ => (.error (.internalError .valueTypeMissMatch), s2)
    | _ => (.error (.internalError .valueTypeMissMatch), s1)

/-- `StackFrame::exec_athrow`: pop the exception object and raise
`ExceptionThrown`. (The source's `assert!` that the object's class is a
subclass of `Throwable` panics rather than returning an error and is
not modelled; every throw in this file uses a throwable object.) -/
def execAthrow (s : OperandStack) :
    Except MethodCallError InstructionResult × OperandStack :=
  match s.pop with
  | .error e => (.error (.internalError e), s)
  | .ok (v, s1) =>
    match v with
    | .objectRef h => (.error (.exceptionThrown h), s1)
    | _ => (.error (.internalError (.executeCodeError "ShouldBeObject")), s1)

/-- Wrap an integer into the `i64` range (two's complement). -/
def wrap64 (v : ℤ) : ℤ := toSigned64 (toUnsigned64 v)

/-- The `Lshl` closure `l1.shl(l2)`: no masking in the source; a count
`≥ 64` is an arithmetic overflow in Rust (panic with debug assertions,
machine-masked to the low six bits otherwise). The release behaviour is
modelled; no theorem below depends on the overflowing case. -/
def wrap64shl (l1 l2 : ℤ) : ℤ := wrap64 (l1 * 2 ^ ((l2 % 64).toNat))

/-- `StackFrame::execute_instruction` restricted to the pure-stack
instructions above, with the exact evaluator closure of each arm. -/
def executeInstruction (instr : Instr) (s : OperandStack) :
    Except MethodCallError InstructionResult × OperandStack :=
  match instr with
  | .idiv => execIntMath idivEval s
  | .irem => execIntMath iremEval s
  | .ldiv => execLongMath ldivEval s
  | .lrem => execLongMath lremEval s
  | .ishl => execIntMath ishlEval s
  | .ishr => execIntMath ishrEval s
  | .iushr => execIntMath iushrEval s
  | .lshl => execLongShift (fun l1 l2 => .ok (wrap64shl l1 l2)) s
  | .lshr => execLongShift (fun l1 l2 => .ok (arithShr l1 ((l2 % 64).toNat))) s
  | .lushr => execLongShift lushrEval s
  | .fcmpl => execFcmp 1 s
  | .fcmpg => execFcmp (-1) s
  | .dcmpl => execDcmp 1 s
  | .dcmpg => execDcmp (-1) s
  | .athrow => execAthrow s

/-- Outcome of one iteration of the `StackFrame::execute` loop. -/
inductive StepOutcome where
  | returned (v : Option Value) : StepOutcome
  | nextInstruction (s : OperandStack) : StepOutcome
  | continueAt (pc : ℕ) (s : OperandStack) : StepOutcome
  | thrownToCaller (h : ℕ) : StepOutcome
  | fatal (e : VmError) : StepOutcome
deriving DecidableEq, Repr

/-- The `Err(MethodCallError::ExceptionThrown(exp_ref))` arm of the
`StackFrame::execute` loop: find the first exception-table entry whose
`catch_line` matches the instruction's pc; if found push the exception
object onto the operand stack (the stack is *not* cleared) and jump to
the handler; otherwise re-raise to the caller. -/
def dispatchException (tables : List ExceptionTable) (pc : ℕ) (s : OperandStack)
    (h : ℕ) : StepOutcome :=
  match tables.find? (fun t => t.catch_line pc) with
  | some t =>
    match s.push (.objectRef h) with
    | .ok s2 => .continueAt t.handler_pc s2
    | .error e => .fatal e
  | none => .thrownToCaller h

/-- The `match result` of the `StackFrame::execute` loop: returns,
continues, enters exception dispatch on `ExceptionThrown`, and
terminates the interpreter on any `InternalError`. -/
def handleInstructionResult (tables : List ExceptionTable) (pc : ℕ) :
    Except MethodCallError InstructionResult × OperandStack → StepOutcome
  | (.ok (.returnFromMethod v), _) => .returned v
  | (.ok .continueMethodExecution, s') => .nextInstruction s'
  | (.error (.exceptionThrown h), s') => dispatchException tables pc s' h
  | (.error (.internalError e), _) => .fatal e

/-- Whether an instruction result is a thrown Java exception — the only
kind of error to which the `execute` loop applies the handler search. -/
def raisesJavaException : Except MethodCallError InstructionResult → Bool
  | .error (.exceptionThrown _) => true
  | _ => false

/-- One iteration of the `StackFrame::execute` loop: execute the
instruction at `pc` and handle its result. -/
def executeStep (tables : List ExceptionTable) (pc : ℕ) (instr : Instr)
    (s : OperandStack) : StepOutcome :=
  handleInstructionResult tables pc (executeInstruction instr s)

/-- The spec's exception-handling step, stated from the spec's words:
scan for the first entry whose `[start_pc, end_pc)` contains the pc and
whose catch type is absent or a class the thrown object is an instance
of; on a match clear the operand stack, push the exception and jump to
the handler; otherwise re-raise in the caller. -/
def specExceptionDispatch (ct : ClassTable) (heap : HeapClasses)
    (tables : List ExceptionTable) (pc : ℕ) (s : OperandStack) (h : ℕ) :
    StepOutcome :=
  let entryMatches := fun (t : ExceptionTable) =>
    (decide (t.start_pc ≤ pc) && decide (pc < t.end_pc)) &&
      match t.catch_type with
      | none => true
      | some cn =>
        match heap.lookup h with
        | some objClass => isSubclassOf ct (ct.length + 1) objClass cn
        | none => false
  match tables.find? entryMatches with
  | some t => .continueAt t.handler_pc ⟨s.capacity, [.objectRef h]⟩
  | none => .thrownToCaller h

/-! ## Field layout (`method_area.rs`, `MethodArea::do_class_loading`) -/

/-- The decoder's field record as consumed by `do_class_loading`: only
the name and the STATIC access flag matter for layout. -/
structure FieldInfo where
  name : String
  isStatic : Bool
deriving DecidableEq, Repr

/-- `runtime_field_info.rs` – the layout-relevant part of
`RuntimeFieldInfo`; `offset` stays 0 for static fields. -/
structure RuntimeFieldInfo where
  name : String
  isStatic : Bool
  offset : ℕ
deriving DecidableEq, Repr

/-- `IndexMap::insert`: replace the value in place when the key is
already present, append otherwise. -/
def indexMapInsert {A : Type} (m : List (String × A)) (k : String) (v : A) :
    List (String × A) :=
  if m.any (fun p => p.1 = k) then
    m.map (fun p => if p.1 = k then (k, v) else p)
  else m ++ [(k, v)]

/-- The field loop of `MethodArea::do_class_loading`: non-static fields
get `field.offset = super_num_of_fields + field_offset` after
incrementing `field_offset`; every field (static or not) is inserted
into the `fields` map. -/
def layoutFieldsAux (superNumOfFields : ℕ) :
    List (String × RuntimeFieldInfo) → ℕ → List FieldInfo →
      List (String × RuntimeFieldInfo) × ℕ
  | fields, fieldOffset, [] => (fields, fieldOffset)
  | fields, fieldOffset, fi :: rest =>
    if fi.isStatic then
      layoutFieldsAux superNumOfFields
        (indexMapInsert fields fi.name ⟨fi.name, fi.isStatic, 0⟩) fieldOffset rest
    else
      layoutFieldsAux superNumOfFields
        (indexMapInsert fields fi.name
          ⟨fi.name, fi.isStatic, superNumOfFields + (fieldOffset + 1)⟩)
        (fieldOffset + 1) rest

/-- The `fields` map built by `do_class_loading` (initially empty,
`field_offset = 0`). -/
def layoutFields (superNumOfFields : ℕ) (infos : List FieldInfo) :
    List (String × RuntimeFieldInfo) × ℕ :=
  layoutFieldsAux superNumOfFields [] 0 infos

/-- `total_num_of_fields` exactly as computed in `do_class_loading`:
`super_num_of_fields + fields.len()` — the length of the map holding
every declared field, static fields included. -/
def totalNumOfFields (superNumOfFields : ℕ) (infos : List FieldInfo) : ℕ :=
  superNumOfFields + (layoutFields superNumOfFields infos).1.length

/-- The claim's value, from the spec's words: superclass total plus the
number of non-static declared fields. -/
def specTotalNumOfFields (superNumOfFields : ℕ) (infos : List FieldInfo) : ℕ :=
  superNumOfFields + (infos.filter (fun f => !f.isStatic)).length

/-! ## Local-variable table (`stack_frame.rs`) -/

/-- `stack_frame.rs` – `enum LocalValue`. -/
inductive LocalValue where
  | entry (v : Value) : LocalValue
  | placeHolder : LocalValue
deriving DecidableEq, Repr

/-- Whether a value matches the `Long(_) | Double(_)` pattern. -/
def Value.isWide : Value → Bool
  | .long _ => true
  | .double _ => true
  | _ => false

/-- `StackFrame::push_local`: a Long/Double pushes its entry and then a
`PlaceHolder`; everything else pushes a single entry. -/
def pushLocal (tbl : List LocalValue) (v : Value) : List LocalValue :=
  if v.isWide then tbl ++ [.entry v, .placeHolder]
  else tbl ++ [.entry v]

/-- `StackFrame::get_local`: out-of-range is `IndexOutOfBounds`;
reading a `PlaceHolder` is `InvalidOffset(offset)` — an error, not a
value. -/
def getLocal (tbl : List LocalValue) (offset : ℕ) : Except VmError Value :=
  match tbl[offset]? with
  | none => .error .indexOutOfBounds
  | some (.entry e) => .ok e
  | some .placeHolder => .error (.invalidOffset offset)

/-! ## Null receivers (`stack_frame.rs`) -/

/-- The VM-side state the null-receiver paths need: the heaps' bump
allocation counter and the class recorded in each allocated object's
header. -/
structure MiniVm where
  nextHandle : ℕ
  classNames : List (ℕ × String)
deriving DecidableEq, Repr

/-- `VirtualMachine::new_object_by_class_name` (allocation identity
only): a fresh handle whose header records the class name. -/
def MiniVm.newObjectByClassName (vm : MiniVm) (className : String) : ℕ × MiniVm :=
  (vm.nextHandle, ⟨vm.nextHandle + 1, (vm.nextHandle, className) :: vm.classNames⟩)

/-- `StackFrame::exec_get_field`: pop the receiver; only an `ObjectRef`
reaches the field read (`get_field_by_name`, abstracted as a function
argument); any other value — `Null` included — yields
`InternalError(ValueTypeMissMatch)`. The constant-pool resolution of
the field name is passed in resolved form. -/
def execGetField (getFieldByName : ℕ → String → Except VmError Value)
    (fieldName : String) (s : OperandStack) :
    Except MethodCallError InstructionResult × OperandStack :=
  match s.pop with
  | .error e => (.error (.internalError e), s)
  | .ok (v, s1) =>
    match v with
    | .objectRef h =>
      match getFieldByName h fieldName with
      | .error e => (.error (.internalError e), s1)
      | .ok fieldValue =>
        match s1.push fieldValue with
        | .ok s2 => (.ok .continueMethodExecution, s2)
        | .error e => (.error (.internalError e), s1)
    | _ => (.error (.internalError .valueTypeMissMatch), s1)

/-- `StackFrame::exec_arraylength`: `pop_array` accepts only an
`ArrayRef`; `Null` (like any other value) yields `InternalError
(ExecuteCodeError("ShouldBeArray"))`. The array's length is read from
its header, abstracted as a function argument. -/
def execArraylength (arrayLength : ℕ → ℕ) (s : OperandStack) :
    Except MethodCallError InstructionResult × OperandStack :=
  match s.pop with
  | .error e => (.error (.internalError e), s)
  | .ok (v, s1) =>
    match v with
    | .arrayRef h =>
      match s1.push (.int (arrayLength h)) with
      | .ok s2 => (.ok .continueMethodExecution, s2)
      | .error e => (.error (.internalError e), s1)
    | _ => (.error (.internalError (.executeCodeError "ShouldBeArray")), s1)

/-- `StackFrame::exec_aaload`: `pop_int` the index, `pop_array` the
array (a `Null` array reference fails there with `ExecuteCodeError
("ShouldBeArray")`), read the element (abstracted), and push it when it
is a reference or null. -/
def execAaload (arrayGet : ℕ → ℕ → Except VmError Value) (s : OperandStack) :
    Except MethodCallError InstructionResult × OperandStack :=
  match s.pop with
  | .error e => (.error (.internalError e), s)
  | .ok (iv, s1) =>
    match iv with
    | .int i =>
      match s1.pop with
      | .error e => (.error (.internalError e), s1)
      | .ok (av, s2) =>
        match av with
        | .arrayRef h =>
          match arrayGet h (toUnsigned64 i).toNat with
          | .error e => (.error (.internalError e), s2)
          | .ok value =>
            match value with
            | .objectRef _ | .arrayRef _ | .null =>
              match s2.push value with
              | .ok s3 => (.ok .continueMethodExecution, s3)
              | .error e => (.error (.internalError e), s2)
            | _ => (.error (.internalError .valueTypeMissMatch), s2)
        | _ => (.error (.internalError (.executeCodeError "ShouldBeArray")), s2)
    | _ => (.error (.internalError .valueTypeMissMatch), s1)

/-- What `invoke_virtual_on_receiver` would go on to invoke (the nested
`invoke_method` is beyond this model; the popped receiver and arguments
are returned as data instead). -/
inductive DispatchTarget where
  | onObject (receiver : ℕ) (args : List Value) : DispatchTarget
  | onArray (receiver : ℕ) (args : List Value) : DispatchTarget
deriving DecidableEq, Repr

/-- `StackFrame::invoke_virtual_on_receiver`: pop the arguments
(`pop_n` per the resolved descriptor's arity), pop the receiver; an
object or array receiver re-dispatches on its runtime class; a `Null`
receiver allocates a `java/lang/NullPointerException` object and raises
`ExceptionThrown` with it; anything else is `InternalError
(ValueTypeMissMatch)`. -/
def invokeVirtualOnReceiver (vm : MiniVm) (argCount : ℕ) (s : OperandStack) :
    Except MethodCallError DispatchTarget × OperandStack × MiniVm :=
  match s.popN argCount with
  | .error e => (.error (.internalError e), s, vm)
  | .ok (args, s1) =>
    match s1.pop with
    | .error e => (.error (.internalError e), s1, vm)
    | .ok (popValue, s2) =>
      match popValue with
      | .objectRef h => (.ok (.onObject h args), s2, vm)
      | .arrayRef h => (.ok (.onArray h args), s2, vm)
      | .null =>
        let (npe, vm') := vm.newObjectByClassName "java/lang/NullPointerException"
        (.error (.exceptionThrown npe), s2, vm')
      | _ => (.error (.internalError .valueTypeMissMatch), s2, vm)

/-! ## Interning (`virtual_machine.rs`, `static_field_area.rs`) -/

/-- The VM state relevant to interning: the shared bump-allocation
counter (object and array handles are strictly increasing) and the two
intern tables of `StaticArea`. -/
structure VmInternState where
  nextHandle : ℕ
  string_constant_pool : List (String × ℕ)
  class_constant_pool : List (String × ℕ)
deriving DecidableEq, Repr

/-- Allocation (`StaticArea::new_object` / `VirtualMachine::new_array`)
as handle creation. -/
def VmInternState.alloc (st : VmInternState) : ℕ × VmInternState :=
  (st.nextHandle, { st with nextHandle := st.nextHandle + 1 })

/-- `VirtualMachine::new_java_lang_string_object`: return the interned
handle when present; otherwise allocate the backing char array, then
the string object, set its `value`/`hash` fields (writes do not affect
identity and are not modelled), record the object in
`string_constant_pool` and return it. -/
def newJavaLangStringObject (st : VmInternState) (value : String) : ℕ × VmInternState :=
  match st.string_constant_pool.lookup value with
  | some v => (v, st)
  | none =>
    let (_arrayRef, st1) := st.alloc
    let (object, st2) := st1.alloc
    (object,
      { st2 with string_constant_pool := (value, object) :: st2.string_constant_pool })

/-- `VirtualMachine::new_java_lang_class_object`: return the interned
handle when present; otherwise allocate the mirror object, create (and
intern) the name string and set the `name` field. The mirror itself is
never inserted into `class_constant_pool` — the source has no such
insert. -/
def newJavaLangClassObject (st : VmInternState) (className : String) : ℕ × VmInternState :=
  match st.class_constant_pool.lookup className with
  | some v => (v, st)
  | none =>
    let (classObject, st1) := st.alloc
    let (_stringObject, st2) := newJavaLangStringObject st1 className
    (classObject, st2)

/-! ## Class loading pipeline (`virtual_machine.rs`, `method_area.rs`,
`bootstrap_class_loader.rs`) -/

/-- `loaded_class.rs` – `enum ClassStatus`. -/
inductive ClassStatus where
  | loading : ClassStatus
  | loaded : ClassStatus
  | linking : ClassStatus
  | linked : ClassStatus
  | initializing : ClassStatus
  | initialized : ClassStatus
deriving DecidableEq, Repr

/-- The method-area state for the pipeline: the arena of classes in
registration order — a class reference is its arena index, and the
bootstrap loader's registry maps each name to the one arena entry
carrying it — plus the log of `<clinit>` invocations (one entry per
invocation). Static-field initialization during linking does not
affect this state and is not recorded. -/
structure MethodAreaState where
  classes : List (String × ClassStatus)
  clinitRuns : List String
deriving DecidableEq, Repr

/-- The registry lookup (`loaded_class.get(name)`), as the arena index
of the class with this name. -/
def findClassIdx (classes : List (String × ClassStatus)) (name : String) : Option ℕ :=
  match classes with
  | [] => none
  | p :: rest =>
    if p.1 = name then some 0 else (findClassIdx rest name).map (· + 1)

/-- The status read `class_ref.status` through an arena reference. -/
def statusOf (st : MethodAreaState) (r : ℕ) : Option ClassStatus :=
  (st.classes[r]?).map (·.2)

/-- `VirtualMachine::set_class_stage` via `MethodArea::get_mut`: update
the status of the class at arena index `r`; a dangling reference is a
no-op (`get_mut` returns `None`). -/
def setClassStage (st : MethodAreaState) (r : ℕ) (c : ClassStatus) : MethodAreaState :=
  match st.classes[r]? with
  | some p => { st with classes := st.classes.set r (p.1, c) }
  | none => st

/-- `MethodArea::load_class`: return the registered reference when the
name is present (`AlreadyLoaded`); otherwise decode and register the
class with status `Loaded` (the recursive super/interface loading and
constant-pool building do not affect this class's own entry and are
not modelled). -/
def loadClass (st : MethodAreaState) (name : String) : ℕ × MethodAreaState :=
  match findClassIdx st.classes name with
  | some r => (r, st)
  | none =>
    (st.classes.length, { st with classes := st.classes ++ [(name, .loaded)] })

/-- `VirtualMachine::link_class`: only when the status is `Loaded`, go
through `Linking` (initializing static slots) to `Linked`. -/
def linkClass (st : MethodAreaState) (r : ℕ) : MethodAreaState :=
  if statusOf st r = some .loaded then
    setClassStage (setClassStage st r .linking) r .linked
  else st

/-- The `if let Ok(method_ref) = class_ref.get_method("<clinit>",
"()V")` body of `initialize_class`: invoke the class initializer when
the class declares one, recording the invocation. -/
def runClinit (hasClinit : String → Bool) (st : MethodAreaState) (r : ℕ) :
    MethodAreaState :=
  match st.classes[r]? with
  | some p =>
    if hasClinit p.1 then { st with clinitRuns := st.clinitRuns ++ [p.1] }
    else st
  | none => st

/-- `VirtualMachine::initialize_class`: only when the status is
`Linked`, set `Initializing`, invoke `<clinit> ()V` when the class has
one, and set `Initialized`. Any other observed status —
`Initializing` in particular — returns at once. -/
def initializeClass (hasClinit : String → Bool) (st : MethodAreaState) (r : ℕ) :
    MethodAreaState :=
  if statusOf st r = some .linked then
    setClassStage (runClinit hasClinit (setClassStage st r .initializing) r) r
      .initialized
  else st

/-- Array class names are canonicalized to `java/lang/Object` at the
top of `lookup_class_and_initialize`. -/
def canonicalClassName (name : String) : String :=
  if name.startsWith "[" then "java/lang/Object" else name

/-- `VirtualMachine::lookup_class_and_initialize`: load, link,
initialize; returns the stable arena reference. -/
def lookupClassAndInitialize (hasClinit : String → Bool) (st : MethodAreaState)
    (className : String) : ℕ × MethodAreaState :=
  let name := canonicalClassName className
  let (r, st1) := loadClass st name
  let st2 := linkClass st1 r
  let st3 := initializeClass hasClinit st2 r
  (r, st3)

/-! ## Managed heap (`memory_trunk.rs`, `object_heap.rs`,
`jvm_values.rs`) -/

/-- `memory_trunk.rs` – `MemoryChunk`: `mem` maps (8-byte-aligned) byte
offsets to the 8-byte word stored there; `alloc_zeroed` zero-fills the
whole chunk at construction. -/
structure MemoryChunk where
  capacity : ℕ
  used : ℕ
  mem : ℕ → ℕ

/-- `MemoryChunk::new(capacity)`: a zero-filled chunk with the bump
cursor at 0. -/
def MemoryChunk.new (capacity : ℕ) : MemoryChunk := ⟨capacity, 0, fun _ => 0⟩

/-- `MemoryChunk::alloc`: bump allocation; `None` once the capacity is
exceeded. -/
def MemoryChunk.alloc (m : MemoryChunk) (requiredSize : ℕ) :
    Option (ℕ × MemoryChunk) :=
  if m.used + requiredSize > m.capacity then none
  else some (m.used, { m with used := m.used + requiredSize })

/-- A single 8-byte store (`std::ptr::write`). -/
def writeWord (mem : ℕ → ℕ) (off v : ℕ) : ℕ → ℕ :=
  fun a => if a = off then v else mem a

/-- `jvm_values.rs`: `ALLOC_HEADER_SIZE` (a `u64` bitfield, 8 bytes). -/
def ALLOC_HEADER_SIZE : ℕ := 8

/-- `jvm_values.rs`: `OBJECT_HEADER_SIZE` (one class pointer). -/
def OBJECT_HEADER_SIZE : ℕ := 8

/-- `jvm_values.rs`: `ARRAY_HEADER_SIZE` (element kind and length). -/
def ARRAY_HEADER_SIZE : ℕ := 16

/-- The `AllocateHeader` bitfield: the kind tag in bit 0, the 32-bit
byte size in the next 32 bits. -/
def allocateHeaderWord (kind size : ℕ) : ℕ := kind + 2 * size

/-- `size_of_object`: headers plus 8 bytes per field slot. -/
def size_of_object (totalFields : ℕ) : ℕ :=
  ALLOC_HEADER_SIZE + OBJECT_HEADER_SIZE + 8 * totalFields

/-- `size_of_array`. -/
def size_of_array (length : ℕ) : ℕ :=
  ALLOC_HEADER_SIZE + ARRAY_HEADER_SIZE + 8 * length

/-- `data_offset()` for objects. -/
def objectDataOffset : ℕ := ALLOC_HEADER_SIZE + OBJECT_HEADER_SIZE

/-- `data_offset()` for arrays. -/
def arrayDataOffset : ℕ := ALLOC_HEADER_SIZE + ARRAY_HEADER_SIZE

/-- `jvm_values.rs` – `enum PrimaryType`. -/
inductive PrimaryType where
  | byte : PrimaryType
  | char : PrimaryType
  | double : PrimaryType
  | float : PrimaryType
  | int : PrimaryType
  | long : PrimaryType
  | short : PrimaryType
  | boolean : PrimaryType
deriving DecidableEq, Repr

/-- `jvm_values.rs` – `enum ArrayElement` (the nested element type of a
nested array is not needed by the claims). -/
inductive ArrayElementKind where
  | primary (t : PrimaryType) : ArrayElementKind
  | classReference : ArrayElementKind
  | nestedArray : ArrayElementKind
deriving DecidableEq, Repr

/-- An `ObjectReference` together with what its headers hold: the
address, the class (by id) and `get_data_length() =
class.total_num_of_fields`. -/
structure HeapObject where
  ptr : ℕ
  classId : ℕ
  totalFields : ℕ
deriving DecidableEq, Repr

/-- An `ArrayReference` together with its `ArrayHeader` contents. -/
structure HeapArray where
  ptr : ℕ
  element : ArrayElementKind
  arraySize : ℕ
deriving DecidableEq, Repr

/-- `ObjectReference::new_object` memory effect: write the allocation
header at the start and the object header (the class pointer — a
non-zero word, here `classId + 1`) right after it. Data slots are not
touched. -/
def newObjectMem (mem : ℕ → ℕ) (startPtr classId size : ℕ) : ℕ → ℕ :=
  writeWord (writeWord mem startPtr (allocateHeaderWord 0 size))
    (startPtr + ALLOC_HEADER_SIZE) (classId + 1)

/-- `ArrayReference::new_array` memory effect: the allocation header,
then the `ArrayHeader`'s element word (its exact enum encoding is
opaque — only its position inside the header region matters) and
length word. Data slots are not touched. -/
def newArrayMem (mem : ℕ → ℕ) (startPtr size arraySize : ℕ) : ℕ → ℕ :=
  writeWord
    (writeWord (writeWord mem startPtr (allocateHeaderWord 1 size))
      (startPtr + ALLOC_HEADER_SIZE) 1)
    (startPtr + ALLOC_HEADER_SIZE + 8) arraySize

/-- `ObjectHeap::allocate_object`. -/
def allocateObject (m : MemoryChunk) (classId totalFields : ℕ) :
    Option (HeapObject × MemoryChunk) :=
  match m.alloc (size_of_object totalFields) with
  | none => none
  | some (ptr, m1) =>
    some (⟨ptr, classId, totalFields⟩,
      { m1 with mem := newObjectMem m1.mem ptr classId (size_of_object totalFields) })

/-- `ObjectHeap::allocate_array`. -/
def allocateArray (m : MemoryChunk) (element : ArrayElementKind) (length : ℕ) :
    Option (HeapArray × MemoryChunk) :=
  match m.alloc (size_of_array length) with
  | none => none
  | some (ptr, m1) =>
    some (⟨ptr, element, length⟩,
      { m1 with mem := newArrayMem m1.mem ptr (size_of_array length) length })

/-- IEEE-754 binary32 decode of a bit pattern (`std::ptr::read` as
`f32`); NaNs and infinities (exponent field 255) are `none` in the
float model. -/
def decodeF32 (w : ℕ) : FloatV :=
  let sign : ℚ := if w / 2 ^ 31 % 2 = 1 then -1 else 1
  let e : ℕ := w / 2 ^ 23 % 2 ^ 8
  let m : ℕ := w % 2 ^ 23
  if e = 255 then none
  else if e = 0 then some (sign * (m : ℚ) / 2 ^ 149)
  else some (sign * ((2 ^ 23 + m : ℕ) : ℚ) * 2 ^ e / 2 ^ 150)

/-- IEEE-754 binary64 decode of a bit pattern. -/
def decodeF64 (w : ℕ) : FloatV :=
  let sign : ℚ := if w / 2 ^ 63 % 2 = 1 then -1 else 1
  let e : ℕ := w / 2 ^ 52 % 2 ^ 11
  let m : ℕ := w % 2 ^ 52
  if e = 2047 then none
  else if e = 0 then some (sign * (m : ℚ) / 2 ^ 1074)
  else some (sign * ((2 ^ 52 + m : ℕ) : ℚ) * 2 ^ e / 2 ^ 1075)

/-- `read_value_at!(read_int, Int, i32)`: bounds-check the index
against the data length, then read the slot's low 32 bits as an `i32`. -/
def readIntAt (mem : ℕ → ℕ) (ptr dataOffset totalFields index : ℕ) :
    Except VmError Value :=
  if index ≥ totalFields then .error .indexOutOfBounds
  else .ok (.int (toSigned32 ((mem (ptr + dataOffset + 8 * index) : ℤ) % 2 ^ 32)))

/-- `read_value_at!(read_long, Long, i64)`. -/
def readLongAt (mem : ℕ → ℕ) (ptr dataOffset totalFields index : ℕ) :
    Except VmError Value :=
  if index ≥ totalFields then .error .indexOutOfBounds
  else .ok (.long (toSigned64 ((mem (ptr + dataOffset + 8 * index) : ℤ) % 2 ^ 64)))

/-- `read_value_at!(read_float, Float, f32)`. -/
def readFloatAt (mem : ℕ → ℕ) (ptr dataOffset totalFields index : ℕ) :
    Except VmError Value :=
  if index ≥ totalFields then .error .indexOutOfBounds
  else .ok (.float (decodeF32 (mem (ptr + dataOffset + 8 * index) % 2 ^ 32)))

/-- `read_value_at!(read_double, Double, f64)`. -/
def readDoubleAt (mem : ℕ → ℕ) (ptr dataOffset totalFields index : ℕ) :
    Except VmError Value :=
  if index ≥ totalFields then .error .indexOutOfBounds
  else .ok (.double (decodeF64 (mem (ptr + dataOffset + 8 * index) % 2 ^ 64)))

/-- `read_nullable_value_at!(read_object, ObjectRef, ...)`: a raw zero
word decodes as `Null`; a non-zero word is the stored object reference
(the word is its address/handle). -/
def readObjectAt (mem : ℕ → ℕ) (ptr dataOffset totalFields index : ℕ) :
    Except VmError Value :=
  if index ≥ totalFields then .error .indexOutOfBounds
  else
    let data := mem (ptr + dataOffset + 8 * index)
    if data = 0 then .ok .null else .ok (.objectRef data)

/-- `read_nullable_value_at!(read_array, ArrayRef, ...)`. -/
def readArrayAt (mem : ℕ → ℕ) (ptr dataOffset totalFields index : ℕ) :
    Except VmError Value :=
  if index ≥ totalFields then .error .indexOutOfBounds
  else
    let data := mem (ptr + dataOffset + 8 * index)
    if data = 0 then .ok .null else .ok (.arrayRef data)

/-- `ObjectReference::read_reference`: a zero word is `Null`; otherwise
the containing value's header kind picks the variant — `Object` for an
object receiver, as here. -/
def readReferenceAt (mem : ℕ → ℕ) (ptr dataOffset totalFields index : ℕ) :
    Except VmError Value :=
  if index ≥ totalFields then .error .indexOutOfBounds
  else
    let data := mem (ptr + dataOffset + 8 * index)
    if data = 0 then .ok .null else .ok (.objectRef data)

/-- `ObjectReference::read_value_at_offset`: the field's 1-based offset
becomes a 0-based slot index and the descriptor picks the typed
accessor. -/
def readValueAtOffset (mem : ℕ → ℕ) (obj : HeapObject) (fieldOffset : ℕ)
    (descriptor : String) : Except VmError Value :=
  let offset := fieldOffset - 1
  match descriptor with
  | "B" => readIntAt mem obj.ptr objectDataOffset obj.totalFields offset
  | "C" => readIntAt mem obj.ptr objectDataOffset obj.totalFields offset
  | "D" => readDoubleAt mem obj.ptr objectDataOffset obj.totalFields offset
  | "F" => readFloatAt mem obj.ptr objectDataOffset obj.totalFields offset
  | "I" => readIntAt mem obj.ptr objectDataOffset obj.totalFields offset
  | "J" => readLongAt mem obj.ptr objectDataOffset obj.totalFields offset
  | "S" => readIntAt mem obj.ptr objectDataOffset obj.totalFields offset
  | "Z" => readIntAt mem obj.ptr objectDataOffset obj.totalFields offset
  | "Ljava/lang/Object;" =>
    readReferenceAt mem obj.ptr objectDataOffset obj.totalFields offset
  | other =>
    if other.startsWith "[" then
      readArrayAt mem obj.ptr objectDataOffset obj.totalFields offset
    else readObjectAt mem obj.ptr objectDataOffset obj.totalFields offset

/-- `ArrayReference::get_field_by_offset`: the element type picks the
typed accessor. -/
def arrayGetFieldByOffset (mem : ℕ → ℕ) (arr : HeapArray) (offset : ℕ) :
    Except VmError Value :=
  match arr.element with
  | .primary t =>
    match t with
    | .double => readDoubleAt mem arr.ptr arrayDataOffset arr.arraySize offset
    | .float => readFloatAt mem arr.ptr arrayDataOffset arr.arraySize offset
    | .long => readLongAt mem arr.ptr arrayDataOffset arr.arraySize offset
    | .int => readIntAt mem arr.ptr arrayDataOffset arr.arraySize offset
    | .byte => readIntAt mem arr.ptr arrayDataOffset arr.arraySize offset
    | .char => readIntAt mem arr.ptr arrayDataOffset arr.arraySize offset
    | .short => readIntAt mem arr.ptr arrayDataOffset arr.arraySize offset
    | .boolean => readIntAt mem arr.ptr arrayDataOffset arr.arraySize offset
  | .classReference => readObjectAt mem arr.ptr arrayDataOffset arr.arraySize offset
  | .nestedArray => readArrayAt mem arr.ptr arrayDataOffset arr.arraySize offset

/-- The zero value of an array element type, from the claim's words:
numeric elements read 0 (or 0.0), reference elements read `Null`. -/
def zeroValueOfElement : ArrayElementKind → Value
  | .primary .double => .double (some 0)
  | .primary .float => .float (some 0)
  | .primary .long => .long 0
  | .primary _ => .int 0
  | .classReference => .null
  | .nestedArray => .null

/-- All memory at or above the bump cursor is zero — true of a fresh
chunk and preserved by every allocation (headers are written strictly
below the new cursor). -/
def zeroAboveUsed (m : MemoryChunk) : Prop :=
  ∀ off, m.used ≤ off → m.mem off = 0

/-! ## Helper lemmas -/

theorem find?_append_of_none {α : Type} (p : α → Bool) (l₁ l₂ : List α)
    (h : ∀ x ∈ l₁, p x = false) : (l₁ ++ l₂).find? p = l₂.find? p := by
  induction l₁ with
  | nil => simp
  | cons a l ih =>
    have ha : p a = false := h a (by simp)
    rw [List.cons_append, List.find?_cons_of_neg _ (by simp [ha]),
      ih (fun x hx => h x (by simp [hx]))]

theorem indexMapInsert_append {A : Type} (m : List (String × A)) (k : String) (v : A)
    (h : ∀ p ∈ m, p.1 ≠ k) : indexMapInsert m k v = m ++ [(k, v)] := by
  unfold indexMapInsert
  rw [if_neg]
  intro hc
  rw [List.any_eq_true] at hc
  obtain ⟨p, hp, hpk⟩ := hc
  exact h p hp (by simpa using hpk)

theorem layoutFieldsAux_length (superN : ℕ) (infos : List FieldInfo) :
    ∀ (fields : List (String × RuntimeFieldInfo)) (off : ℕ),
      (infos.map FieldInfo.name).Nodup →
      (∀ fi ∈ infos, ∀ p ∈ fields, p.1 ≠ fi.name) →
      (layoutFieldsAux superN fields off infos).1.length =
        fields.length + infos.length := by
  induction infos with
  | nil => intro fields off _ _; simp [layoutFieldsAux]
  | cons fi rest ih =>
    intro fields off hnodup hdisj
    have hins : ∀ v : RuntimeFieldInfo,
        indexMapInsert fields fi.name v = fields ++ [(fi.name, v)] :=
      fun v => indexMapInsert_append fields fi.name v
        (fun p hp => hdisj fi (by simp) p hp)
    have hnodup' : (rest.map FieldInfo.name).Nodup := by
      rw [List.map_cons, List.nodup_cons] at hnodup
      exact hnodup.2
    have hhead : fi.name ∉ rest.map FieldInfo.name := by
      rw [List.map_cons, List.nodup_cons] at hnodup
      exact hnodup.1
    have hdisj' : ∀ v : RuntimeFieldInfo, ∀ fj ∈ rest,
        ∀ p ∈ fields ++ [(fi.name, v)], p.1 ≠ fj.name := by
      intro v fj hfj p hp
      rcases List.mem_append.mp hp with hp | hp
      · exact hdisj fj (by simp [hfj]) p hp
      · have hpv : p = (fi.name, v) := by simpa using hp
        subst hpv
        intro hEq
        have hEq' : fi.name = fj.name := hEq
        exact hhead (hEq' ▸ List.mem_map_of_mem FieldInfo.name hfj)
    by_cases hstatic : fi.isStatic = true
    · show (layoutFieldsAux superN fields off (fi :: rest)).1.length = _
      rw [layoutFieldsAux, if_pos hstatic, hins,
        ih _ _ hnodup' (hdisj' _)]
      simp only [List.length_append, List.length_cons, List.length_nil]
      omega
    · show (layoutFieldsAux superN fields off (fi :: rest)).1.length = _
      rw [layoutFieldsAux, if_neg hstatic, hins,
        ih _ _ hnodup' (hdisj' _)]
      simp only [List.length_append, List.length_cons, List.length_nil]
      omega

theorem findClassIdx_lt_length (name : String) :
    ∀ (classes : List (String × ClassStatus)) (r : ℕ),
      findClassIdx classes name = some r → r < classes.length := by
  intro classes
  induction classes with
  | nil => intro r h; cases h
  | cons p rest ih =>
    intro r h
    rw [findClassIdx] at h
    by_cases hp : p.1 = name
    · rw [if_pos hp] at h
      cases h
      simp
    · rw [if_neg hp] at h
      rcases Option.map_eq_some'.mp h with ⟨r', hr', hEq⟩
      have := ih r' hr'
      simp only [List.length_cons]
      omega

theorem findClassIdx_entry (name : String) :
    ∀ (classes : List (String × ClassStatus)) (r : ℕ),
      findClassIdx classes name = some r →
      ∃ c : ClassStatus, classes[r]? = some (name, c) := by
  intro classes
  induction classes with
  | nil => intro r h; cases h
  | cons p rest ih =>
    intro r h
    rw [findClassIdx] at h
    by_cases hp : p.1 = name
    · rw [if_pos hp] at h
      cases h
      exact ⟨p.2, by simp [← hp]⟩
    · rw [if_neg hp] at h
      rcases Option.map_eq_some'.mp h with ⟨r', hr', hEq⟩
      rcases ih r' hr' with ⟨c, hc⟩
      exact ⟨c, by simpa [← hEq] using hc⟩

theorem findClassIdx_append_new (name : String) (c : ClassStatus) :
    ∀ classes : List (String × ClassStatus), findClassIdx classes name = none →
      findClassIdx (classes ++ [(name, c)]) name = some classes.length := by
  intro classes
  induction classes with
  | nil => intro _; simp [findClassIdx]
  | cons p rest ih =>
    intro h
    rw [findClassIdx] at h
    by_cases hp : p.1 = name
    · rw [if_pos hp] at h; cases h
    · rw [if_neg hp] at h
      rw [List.cons_append, findClassIdx, if_neg hp,
        ih (Option.map_eq_none'.mp h)]
      simp

theorem findClassIdx_set_status (n : String) :
    ∀ (classes : List (String × ClassStatus)) (r : ℕ) (p : String × ClassStatus)
      (c : ClassStatus), classes[r]? = some p →
      findClassIdx (classes.set r (p.1, c)) n = findClassIdx classes n := by
  intro classes
  induction classes with
  | nil => intro r p c h; cases h
  | cons q rest ih =>
    intro r p c h
    match r with
    | 0 =>
      have hq : q = p := by simpa using h
      subst hq
      simp only [List.set_cons_zero]
      rw [findClassIdx, findClassIdx]
    | r' + 1 =>
      simp only [List.set_cons_succ]
      rw [findClassIdx, findClassIdx, ih r' p c (by simpa using h)]

theorem setClassStage_findClassIdx (st : MethodAreaState) (r : ℕ) (c : ClassStatus)
    (n : String) :
    findClassIdx (setClassStage st r c).classes n = findClassIdx st.classes n := by
  unfold setClassStage
  match hp : st.classes[r]? with
  | some p => exact findClassIdx_set_status n st.classes r p c hp
  | none => rfl

theorem setClassStage_clinitRuns (st : MethodAreaState) (r : ℕ) (c : ClassStatus) :
    (setClassStage st r c).clinitRuns = st.clinitRuns := by
  unfold setClassStage
  match st.classes[r]? with
  | some p => rfl
  | none => rfl

theorem statusOf_setClassStage_self (st : MethodAreaState) (r : ℕ) (c : ClassStatus)
    (h : r < st.classes.length) : statusOf (setClassStage st r c) r = some c := by
  unfold setClassStage statusOf
  rcases hp : st.classes[r]? with _ | p
  · rw [List.getElem?_eq_none_iff] at hp
    omega
  · simp [hp, List.getElem?_set_self h]

theorem setClassStage_length (st : MethodAreaState) (r : ℕ) (c : ClassStatus) :
    (setClassStage st r c).classes.length = st.classes.length := by
  unfold setClassStage
  match st.classes[r]? with
  | some p => simp
  | none => rfl

theorem runClinit_classes (hasClinit : String → Bool) (st : MethodAreaState) (r : ℕ) :
    (runClinit hasClinit st r).classes = st.classes := by
  unfold runClinit
  rcases hp : st.classes[r]? with _ | p
  · rfl
  · by_cases hcl : hasClinit p.1 = true
    · simp [hcl]
    · simp [hcl]

theorem lookupClassAndInitialize_fst (hasClinit : String → Bool)
    (st : MethodAreaState) (n : String) :
    (lookupClassAndInitialize hasClinit st n).1 =
      (loadClass st (canonicalClassName n)).1 := rfl

theorem lookupClassAndInitialize_snd (hasClinit : String → Bool)
    (st : MethodAreaState) (n : String) :
    (lookupClassAndInitialize hasClinit st n).2 =
      initializeClass hasClinit
        (linkClass (loadClass st (canonicalClassName n)).2
          (loadClass st (canonicalClassName n)).1)
        (loadClass st (canonicalClassName n)).1 := rfl

theorem loadClass_finds (st : MethodAreaState) (name : String) :
    findClassIdx (loadClass st name).2.classes name = some (loadClass st name).1 := by
  rcases hf : findClassIdx st.classes name with _ | r
  · simp [loadClass, hf, findClassIdx_append_new name .loaded st.classes hf]
  · simp [loadClass, hf]

theorem linkClass_props (st1 : MethodAreaState) (r : ℕ)
    (hr : r < st1.classes.length) (name : String)
    (hfind : findClassIdx st1.classes name = some r) :
    findClassIdx (linkClass st1 r).classes name = some r ∧
    (linkClass st1 r).classes.length = st1.classes.length ∧
    statusOf (linkClass st1 r) r ≠ some .loaded := by
  unfold linkClass
  by_cases hst : statusOf st1 r = some .loaded
  · rw [if_pos hst]
    refine ⟨by rw [setClassStage_findClassIdx, setClassStage_findClassIdx]; exact hfind,
      by rw [setClassStage_length, setClassStage_length], ?_⟩
    rw [statusOf_setClassStage_self]
    · intro hcon; cases hcon
    · rw [setClassStage_length]; exact hr
  · rw [if_neg hst]
    exact ⟨hfind, rfl, hst⟩

theorem initializeClass_props (hasClinit : String → Bool) (st2 : MethodAreaState)
    (r : ℕ) (hr : r < st2.classes.length) (name : String)
    (hfind : findClassIdx st2.classes name = some r)
    (hnotloaded : statusOf st2 r ≠ some .loaded) :
    findClassIdx (initializeClass hasClinit st2 r).classes name = some r ∧
    statusOf (initializeClass hasClinit st2 r) r ≠ some .loaded ∧
    statusOf (initializeClass hasClinit st2 r) r ≠ some .linked := by
  unfold initializeClass
  by_cases hst : statusOf st2 r = some .linked
  · rw [if_pos hst]
    have hlen : (runClinit hasClinit (setClassStage st2 r .initializing) r).classes.length =
        st2.classes.length := by
      rw [runClinit_classes, setClassStage_length]
    have hfin : statusOf (setClassStage
        (runClinit hasClinit (setClassStage st2 r .initializing) r) r .initialized) r =
        some .initialized := statusOf_setClassStage_self _ _ _ (by omega)
    refine ⟨?_, ?_, ?_⟩
    · rw [setClassStage_findClassIdx]
      show findClassIdx (runClinit hasClinit (setClassStage st2 r .initializing) r).classes
        name = some r
      rw [runClinit_classes, setClassStage_findClassIdx]
      exact hfind
    · rw [hfin]; intro hcon; cases hcon
    · rw [hfin]; intro hcon; cases hcon
  · rw [if_neg hst]
    exact ⟨hfind, hnotloaded, hst⟩

/-- After `lookup_class_and_initialize`, the class is registered at the
returned reference and its status is neither `Loaded` nor `Linked`. -/
theorem lookup_postcondition (hasClinit : String → Bool) (st : MethodAreaState)
    (n : String) :
    findClassIdx (lookupClassAndInitialize hasClinit st n).2.classes
        (canonicalClassName n) = some (lookupClassAndInitialize hasClinit st n).1 ∧
    statusOf (lookupClassAndInitialize hasClinit st n).2
        (lookupClassAndInitialize hasClinit st n).1 ≠ some .loaded ∧
    statusOf (lookupClassAndInitialize hasClinit st n).2
        (lookupClassAndInitialize hasClinit st n).1 ≠ some .linked := by
  rw [lookupClassAndInitialize_fst, lookupClassAndInitialize_snd]
  have hfind1 : findClassIdx (loadClass st (canonicalClassName n)).2.classes
      (canonicalClassName n) = some (loadClass st (canonicalClassName n)).1 :=
    loadClass_finds st (canonicalClassName n)
  have hr1 : (loadClass st (canonicalClassName n)).1 <
      (loadClass st (canonicalClassName n)).2.classes.length :=
    findClassIdx_lt_length _ _ _ hfind1
  obtain ⟨hfind2, hlen2, hnl2⟩ := linkClass_props _ _ hr1 _ hfind1
  exact initializeClass_props hasClinit _ _ (by omega) _ hfind2 hnl2

/-- A lookup of a class already registered with a settled status (not
`Loaded`, not `Linked`) changes nothing and returns the registered
reference. -/
theorem lookup_of_settled (hasClinit : String → Bool) (st : MethodAreaState)
    (n : String) (r : ℕ)
    (hfind : findClassIdx st.classes (canonicalClassName n) = some r)
    (hl : statusOf st r ≠ some .loaded) (hk : statusOf st r ≠ some .linked) :
    lookupClassAndInitialize hasClinit st n = (r, st) := by
  have hload : loadClass st (canonicalClassName n) = (r, st) := by
    unfold loadClass
    rw [hfind]
  have hlink : linkClass st r = st := by
    unfold linkClass
    rw [if_neg hl]
  have hinit : initializeClass hasClinit st r = st := by
    unfold initializeClass
    rw [if_neg hk]
  have h1 := lookupClassAndInitialize_fst hasClinit st n
  have h2 := lookupClassAndInitialize_snd hasClinit st n
  rw [hload] at h1 h2
  simp only at h1 h2
  rw [hlink, hinit] at h2
  exact Prod.ext h1 h2

theorem allocateObject_spec (m : MemoryChunk) (classId totalFields : ℕ)
    (obj : HeapObject) (m1 : MemoryChunk)
    (h : allocateObject m classId totalFields = some (obj, m1)) :
    obj.ptr = m.used ∧ obj.classId = classId ∧ obj.totalFields = totalFields ∧
    m1.used = m.used + size_of_object totalFields ∧
    m1.mem = newObjectMem m.mem m.used classId (size_of_object totalFields) := by
  unfold allocateObject MemoryChunk.alloc at h
  by_cases hcap : m.used + size_of_object totalFields > m.capacity
  · rw [if_pos hcap] at h
    cases h
  · rw [if_neg hcap] at h
    have h' : some ((⟨m.used, classId, totalFields⟩ : HeapObject),
        (⟨m.capacity, m.used + size_of_object totalFields,
          newObjectMem m.mem m.used classId (size_of_object totalFields)⟩ : MemoryChunk)) =
        some (obj, m1) := h
    obtain ⟨h1, h2⟩ := Prod.mk.injEq .. ▸ Option.some.injEq .. ▸ h'
    rw [← h1, ← h2]
    exact ⟨rfl, rfl, rfl, rfl, rfl⟩

theorem allocateArray_spec (m : MemoryChunk) (element : ArrayElementKind) (len : ℕ)
    (arr : HeapArray) (m1 : MemoryChunk)
    (h : allocateArray m element len = some (arr, m1)) :
    arr.ptr = m.used ∧ arr.element = element ∧ arr.arraySize = len ∧
    m1.used = m.used + size_of_array len ∧
    m1.mem = newArrayMem m.mem m.used (size_of_array len) len := by
  unfold allocateArray MemoryChunk.alloc at h
  by_cases hcap : m.used + size_of_array len > m.capacity
  · rw [if_pos hcap] at h
    cases h
  · rw [if_neg hcap] at h
    have h' : some ((⟨m.used, element, len⟩ : HeapArray),
        (⟨m.capacity, m.used + size_of_array len,
          newArrayMem m.mem m.used (size_of_array len) len⟩ : MemoryChunk)) =
        some (arr, m1) := h
    obtain ⟨h1, h2⟩ := Prod.mk.injEq .. ▸ Option.some.injEq .. ▸ h'
    rw [← h1, ← h2]
    exact ⟨rfl, rfl, rfl, rfl, rfl⟩

theorem newObjectMem_untouched (mem : ℕ → ℕ) (startPtr classId size a : ℕ)
    (h1 : a ≠ startPtr) (h2 : a ≠ startPtr + ALLOC_HEADER_SIZE) :
    newObjectMem mem startPtr classId size a = mem a := by
  unfold newObjectMem writeWord
  rw [if_neg h2, if_neg h1]

theorem newArrayMem_untouched (mem : ℕ → ℕ) (startPtr size arraySize a : ℕ)
    (h1 : a ≠ startPtr) (h2 : a ≠ startPtr + ALLOC_HEADER_SIZE)
    (h3 : a ≠ startPtr + ALLOC_HEADER_SIZE + 8) :
    newArrayMem mem startPtr size arraySize a = mem a := by
  unfold newArrayMem writeWord
  rw [if_neg h3, if_neg h2, if_neg h1]

theorem allocateObject_data_word_zero (m : MemoryChunk) (classId totalFields : ℕ)
    (obj : HeapObject) (m1 : MemoryChunk) (hz : zeroAboveUsed m)
    (h : allocateObject m classId totalFields = some (obj, m1)) (k : ℕ) :
    m1.mem (obj.ptr + objectDataOffset + 8 * k) = 0 := by
  obtain ⟨hp, _, _, _, hm⟩ := allocateObject_spec m classId totalFields obj m1 h
  rw [hm, hp]
  rw [newObjectMem_untouched]
  · exact hz _ (by omega)
  · unfold objectDataOffset ALLOC_HEADER_SIZE OBJECT_HEADER_SIZE
    omega
  · unfold objectDataOffset ALLOC_HEADER_SIZE OBJECT_HEADER_SIZE
    omega

theorem allocateArray_data_word_zero (m : MemoryChunk) (element : ArrayElementKind)
    (len : ℕ) (arr : HeapArray) (m1 : MemoryChunk) (hz : zeroAboveUsed m)
    (h : allocateArray m element len = some (arr, m1)) (k : ℕ) :
    m1.mem (arr.ptr + arrayDataOffset + 8 * k) = 0 := by
  obtain ⟨hp, _, _, _, hm⟩ := allocateArray_spec m element len arr m1 h
  rw [hm, hp]
  rw [newArrayMem_untouched]
  · exact hz _ (by omega)
  · unfold arrayDataOffset ALLOC_HEADER_SIZE ARRAY_HEADER_SIZE
    omega
  · unfold arrayDataOffset ALLOC_HEADER_SIZE ARRAY_HEADER_SIZE
    omega
  · unfold arrayDataOffset ALLOC_HEADER_SIZE ARRAY_HEADER_SIZE
    omega

theorem allocateObject_zeroAboveUsed (m : MemoryChunk) (classId totalFields : ℕ)
    (obj : HeapObject) (m1 : MemoryChunk) (hz : zeroAboveUsed m)
    (h : allocateObject m classId totalFields = some (obj, m1)) :
    zeroAboveUsed m1 := by
  obtain ⟨hp, _, _, hu, hm⟩ := allocateObject_spec m classId totalFields obj m1 h
  intro off hoff
  rw [hu] at hoff
  rw [hm, newObjectMem_untouched]
  · exact hz _ (by omega)
  · unfold size_of_object ALLOC_HEADER_SIZE OBJECT_HEADER_SIZE at hoff
    omega
  · unfold size_of_object ALLOC_HEADER_SIZE OBJECT_HEADER_SIZE at hoff
    unfold ALLOC_HEADER_SIZE
    omega

theorem allocateArray_zeroAboveUsed (m : MemoryChunk) (element : ArrayElementKind)
    (len : ℕ) (arr : HeapArray) (m1 : MemoryChunk) (hz : zeroAboveUsed m)
    (h : allocateArray m element len = some (arr, m1)) :
    zeroAboveUsed m1 := by
  obtain ⟨hp, _, _, hu, hm⟩ := allocateArray_spec m element len arr m1 h
  intro off hoff
  rw [hu] at hoff
  rw [hm, newArrayMem_untouched]
  · exact hz _ (by omega)
  · unfold size_of_array ALLOC_HEADER_SIZE ARRAY_HEADER_SIZE at hoff
    omega
  · unfold size_of_array ALLOC_HEADER_SIZE ARRAY_HEADER_SIZE at hoff
    unfold ALLOC_HEADER_SIZE
    omega
  · unfold size_of_array ALLOC_HEADER_SIZE ARRAY_HEADER_SIZE at hoff
    unfold ALLOC_HEADER_SIZE
    omega

theorem readIntAt_zero_word (mem : ℕ → ℕ) (ptr dataOffset totalFields index : ℕ)
    (hi : index < totalFields) (hw : mem (ptr + dataOffset + 8 * index) = 0) :
    readIntAt mem ptr dataOffset totalFields index = .ok (.int 0) := by
  unfold readIntAt
  rw [if_neg (by omega), hw]
  norm_num [toSigned32]

theorem readLongAt_zero_word (mem : ℕ → ℕ) (ptr dataOffset totalFields index : ℕ)
    (hi : index < totalFields) (hw : mem (ptr + dataOffset + 8 * index) = 0) :
    readLongAt mem ptr dataOffset totalFields index = .ok (.long 0) := by
  unfold readLongAt
  rw [if_neg (by omega), hw]
  norm_num [toSigned64]

theorem readFloatAt_zero_word (mem : ℕ → ℕ) (ptr dataOffset totalFields index : ℕ)
    (hi : index < totalFields) (hw : mem (ptr + dataOffset + 8 * index) = 0) :
    readFloatAt mem ptr dataOffset totalFields index = .ok (.float (some 0)) := by
  unfold readFloatAt
  rw [if_neg (by omega), hw]
  norm_num [decodeF32]

theorem readDoubleAt_zero_word (mem : ℕ → ℕ) (ptr dataOffset totalFields index : ℕ)
    (hi : index < totalFields) (hw : mem (ptr + dataOffset + 8 * index) = 0) :
    readDoubleAt mem ptr dataOffset totalFields index = .ok (.double (some 0)) := by
  unfold readDoubleAt
  rw [if_neg (by omega), hw]
  norm_num [decodeF64]

theorem readObjectAt_zero_word (mem : ℕ → ℕ) (ptr dataOffset totalFields index : ℕ)
    (hi : index < totalFields) (hw : mem (ptr + dataOffset + 8 * index) = 0) :
    readObjectAt mem ptr dataOffset totalFields index = .ok .null := by
  unfold readObjectAt
  rw [if_neg (by omega)]
  simp [hw]

theorem readArrayAt_zero_word (mem : ℕ → ℕ) (ptr dataOffset totalFields index : ℕ)
    (hi : index < totalFields) (hw : mem (ptr + dataOffset + 8 * index) = 0) :
    readArrayAt mem ptr dataOffset totalFields index = .ok .null := by
  unfold readArrayAt
  rw [if_neg (by omega)]
  simp [hw]

theorem readReferenceAt_zero_word (mem : ℕ → ℕ) (ptr dataOffset totalFields index : ℕ)
    (hi : index < totalFields) (hw : mem (ptr + dataOffset + 8 * index) = 0) :
    readReferenceAt mem ptr dataOffset totalFields index = .ok .null := by
  unfold readReferenceAt
  rw [if_neg (by omega)]
  simp [hw]

/-! ## Claim theorems -/

/-- C1: refuted (code bug). With a zero divisor, `Idiv` / `Ldiv` /
`Irem` / `Lrem` produce `MethodCallError::InternalError
(VmError::ArithmeticException)`, and the `execute` loop terminates
fatally on an `InternalError` without ever consulting the exception
table — even when a handler for `java/lang/ArithmeticException`
(scenario S3) or a catch-all handler covers the throwing pc. No
exception object is created and nothing is catchable. -/
theorem idiv_zero_divisor_fatal_not_catchable :
    executeStep [⟨0, 4, 5, some "java/lang/ArithmeticException"⟩] 2 .idiv
        ⟨2, [.int 0, .int 1]⟩ = .fatal .arithmeticException ∧
    executeStep [⟨0, 4, 5, none⟩] 2 .idiv ⟨2, [.int 0, .int 1]⟩ =
        .fatal .arithmeticException ∧
    executeInstruction .idiv ⟨2, [.int 0, .int 1]⟩ =
        (.error (.internalError .arithmeticException), ⟨2, []⟩) ∧
    executeInstruction .ldiv ⟨2, [.long 0, .long 1]⟩ =
        (.error (.internalError .arithmeticException), ⟨2, []⟩) ∧
    executeInstruction .irem ⟨2, [.int 0, .int 1]⟩ =
        (.error (.internalError .arithmeticException), ⟨2, []⟩) ∧
    executeInstruction .lrem ⟨2, [.long 0, .long 1]⟩ =
        (.error (.internalError .arithmeticException), ⟨2, []⟩) := by
  refine ⟨?_, ?_, ?_, ?_, ?_, ?_⟩ <;> rfl

/-- C2: counterexample. An `athrow` at pc 2 of an object of class
`java/lang/Bar`, with a single exception-table entry covering
`[0, 4)` whose catch type is `java/lang/Foo` (which `Bar` is not an
instance of) and an operand stack holding `Int 9`: the code matches the
entry anyway (the catch type is never consulted) and pushes the
exception onto the uncleared stack, whereas the claim requires the
entry to be skipped and the exception re-raised in the caller. -/
theorem exception_dispatch_ignores_catch_type_counterexample :
    executeStep [⟨0, 4, 10, some "java/lang/Foo"⟩] 2 .athrow
        ⟨4, [.objectRef 7, .int 9]⟩ =
      .continueAt 10 ⟨4, [.objectRef 7, .int 9]⟩ ∧
    specExceptionDispatch [("java/lang/Bar", none, []), ("java/lang/Foo", none, [])]
        [(7, "java/lang/Bar")] [⟨0, 4, 10, some "java/lang/Foo"⟩] 2
        ⟨4, [.int 9]⟩ 7 = .thrownToCaller 7 ∧
    executeStep [⟨0, 4, 10, some "java/lang/Foo"⟩] 2 .athrow
        ⟨4, [.objectRef 7, .int 9]⟩ ≠
      specExceptionDispatch [("java/lang/Bar", none, []), ("java/lang/Foo", none, [])]
        [(7, "java/lang/Bar")] [⟨0, 4, 10, some "java/lang/Foo"⟩] 2
        ⟨4, [.int 9]⟩ 7 := by
  refine ⟨rfl, rfl, ?_⟩
  decide

/-- C2, amended: when an exception is thrown, the interpreter selects
the first exception-table entry whose half-open `[start_pc, end_pc)`
range contains the throwing instruction's pc, ignoring
`catch_type_name`; on a match it pushes the exception object on top of
the existing operand stack (which is not cleared) and sets pc to
`handler_pc`; with no range match the exception is re-raised in the
caller. -/
theorem exception_dispatch_first_range_match (tables₁ tables₂ : List ExceptionTable)
    (t : ExceptionTable) (pc : ℕ) (s : OperandStack) (h : ℕ)
    (hbefore : ∀ t' ∈ tables₁, t'.catch_line pc = false)
    (hmatch : t.catch_line pc = true)
    (hroom : s.stack.length < s.capacity) :
    dispatchException (tables₁ ++ t :: tables₂) pc s h =
      .continueAt t.handler_pc ⟨s.capacity, .objectRef h :: s.stack⟩ ∧
    ∀ tables : List ExceptionTable, (∀ t' ∈ tables, t'.catch_line pc = false) →
      dispatchException tables pc s h = .thrownToCaller h := by
  constructor
  · unfold dispatchException
    have h1 : (tables₁ ++ t :: tables₂).find? (fun t' => t'.catch_line pc) = some t := by
      rw [find?_append_of_none _ _ _ hbefore]
      simp [List.find?_cons, hmatch]
    rw [h1]
    unfold OperandStack.push
    rw [if_pos hroom]
  · intro tables hall
    unfold dispatchException
    have hn : tables.find? (fun t' => t'.catch_line pc) = none :=
      List.find?_eq_none.mpr (fun x hx => by simp [hall x hx])
    rw [hn]

/-- Witness for the amended C2 theorem at a concrete input: a single
catch-all entry covering pc 1, with `Int 5` already on the stack. -/
theorem exception_dispatch_first_range_match_witness :
    (∀ t' ∈ ([] : List ExceptionTable), t'.catch_line 1 = false) ∧
    (ExceptionTable.mk 0 4 9 none).catch_line 1 = true ∧
    (OperandStack.mk 3 [.int 5]).stack.length < (OperandStack.mk 3 [.int 5]).capacity ∧
    dispatchException [⟨0, 4, 9, none⟩] 1 ⟨3, [.int 5]⟩ 42 =
      .continueAt 9 ⟨3, [.objectRef 42, .int 5]⟩ :=
  ⟨fun t' ht' => absurd ht' (List.not_mem_nil t'), by decide, by decide,
    (exception_dispatch_first_range_match [] [] ⟨0, 4, 9, none⟩ 1 ⟨3, [.int 5]⟩ 42
      (fun t' ht' => absurd ht' (List.not_mem_nil t')) (by decide) (by decide)).1⟩

/-- C6: refuted (code bug). `lushr` masks its shift count with `0x1f`
(31) instead of `0x3f` (63): shifting `Long 1` right by 32 leaves it
unchanged where the spec requires 0, and shifting `Long (-1)` by 32
yields `-1` where the spec requires `0xFFFFFFFF`. The `int` shifts do
mask by 31 as claimed (last three conjuncts). -/
theorem lushr_masks_count_with_31_not_63 :
    executeInstruction .lushr ⟨2, [.int 32, .long 1]⟩ =
        (.ok .continueMethodExecution, ⟨2, [.long 1]⟩) ∧
    lushrEval 1 32 = .ok 1 ∧ specLushr 1 32 = 0 ∧
    lushrEval (-1) 32 = .ok (-1) ∧ specLushr (-1) 32 = 4294967295 ∧
    ishlEval 1 33 = .ok 2 ∧
    ishrEval 8 33 = .ok 4 ∧
    iushrEval (-2) 33 = .ok 2147483647 := by
  refine ⟨?_, ?_, ?_, ?_, ?_, ?_, ?_, ?_⟩ <;> rfl

/-- C7: refuted (code bug). `generate_cmp` pushes `greater_result` when
the first operand is greater, and the instruction wiring passes `-1`
for `Fcmpg`/`Dcmpg` — so `fcmpg` on (2.0, 1.0) pushes `-1` where the
spec requires `1`; and a NaN operand makes the subtraction NaN, which
falls through to the `else` branch and pushes `0`, where the spec
requires `1` (g variants) or `-1` (l variants). -/
theorem fcmpg_inverted_and_nan_pushes_zero :
    executeInstruction .fcmpg ⟨2, [.float (some 1), .float (some 2)]⟩ =
        (.ok .continueMethodExecution, ⟨2, [.int (-1)]⟩) ∧
    specCmpg (some 2) (some 1) = 1 ∧
    executeInstruction .fcmpg ⟨2, [.float (some 1), .float none]⟩ =
        (.ok .continueMethodExecution, ⟨2, [.int 0]⟩) ∧
    specCmpg none (some 1) = 1 ∧
    executeInstruction .fcmpl ⟨2, [.float (some 1), .float none]⟩ =
        (.ok .continueMethodExecution, ⟨2, [.int 0]⟩) ∧
    specCmpl none (some 1) = -1 ∧
    executeInstruction .dcmpg ⟨2, [.double (some 1), .double (some 2)]⟩ =
        (.ok .continueMethodExecution, ⟨2, [.int (-1)]⟩) ∧
    executeInstruction .dcmpl ⟨2, [.double (some 1), .double none]⟩ =
        (.ok .continueMethodExecution, ⟨2, [.int 0]⟩) := by
  refine ⟨?_, rfl, rfl, rfl, rfl, rfl, ?_, rfl⟩ <;>
    simp [executeInstruction, execFcmp, execDcmp, OperandStack.pop, OperandStack.push,
      cmpValue, fsub, fgtZero, fltZero]

/-- C3: counterexample. A class with no superclass declaring one static
field `s` and one instance field `a`: `do_class_loading` computes
`total_num_of_fields = 0 + fields.len() = 2` (the map holds every
declared field, static ones included), while the claim's value is
`0 + |non_static| = 1`. -/
theorem total_num_of_fields_static_counterexample :
    totalNumOfFields 0 [⟨"s", true⟩, ⟨"a", false⟩] = 2 ∧
    specTotalNumOfFields 0 [⟨"s", true⟩, ⟨"a", false⟩] = 1 ∧
    totalNumOfFields 0 [⟨"s", true⟩, ⟨"a", false⟩] ≠
      specTotalNumOfFields 0 [⟨"s", true⟩, ⟨"a", false⟩] := by
  refine ⟨by decide, by decide, by decide⟩

/-- C3, amended: for every loaded class, `total_num_of_fields` equals
the superclass's `total_num_of_fields` (0 when there is no superclass)
plus the number of ALL of the class's declared fields, static fields
included (distinct by name, as in any well-formed class file). -/
theorem total_num_of_fields_amended (superN : ℕ) (infos : List FieldInfo)
    (h : (infos.map FieldInfo.name).Nodup) :
    totalNumOfFields superN infos = superN + infos.length := by
  unfold totalNumOfFields layoutFields
  rw [layoutFieldsAux_length superN infos [] 0 h
    (fun fi _ p hp => absurd hp (List.not_mem_nil p))]
  simp

/-- Witness for the amended C3 theorem: superclass total 3, one static
and one instance field. -/
theorem total_num_of_fields_amended_witness :
    (([⟨"s", true⟩, ⟨"a", false⟩] : List FieldInfo).map FieldInfo.name).Nodup ∧
    totalNumOfFields 3 [⟨"s", true⟩, ⟨"a", false⟩] = 3 + 2 :=
  ⟨by decide, total_num_of_fields_amended 3 [⟨"s", true⟩, ⟨"a", false⟩] (by decide)⟩

/-- C4: counterexample. Pushing a `Long` onto a fresh operand stack of
capacity 2 occupies exactly ONE stack slot, not the two the claim
states: the resulting `Vec` has length 1. (The two local-variable
slots and the unreadable placeholder do hold — see the amended
theorem.) -/
theorem long_one_operand_stack_slot_counterexample :
    (OperandStack.new 2).push (.long 5) = .ok ⟨2, [.long 5]⟩ ∧
    (OperandStack.mk 2 [.long 5]).stack.length = 1 ∧
    (OperandStack.mk 2 [.long 5]).stack.length ≠ 2 := by
  refine ⟨rfl, rfl, by decide⟩

/-- C4, amended: a Long or Double occupies two local-variable slots —
the second a `PlaceHolder` whose read yields `InvalidOffset`, not a
value, while the first reads back the value — but only ONE
operand-stack slot (each `OperandStack::push` appends a single `Vec`
element regardless of the value's width). -/
theorem wide_value_local_slots_and_stack_slot (tbl : List LocalValue) (v : Value)
    (s : OperandStack) (hwide : v.isWide = true) :
    (pushLocal tbl v = tbl ++ [.entry v, .placeHolder] ∧
     getLocal (pushLocal tbl v) tbl.length = .ok v ∧
     getLocal (pushLocal tbl v) (tbl.length + 1) =
       .error (.invalidOffset (tbl.length + 1))) ∧
    ∀ s' : OperandStack, s.push v = .ok s' → s'.stack.length = s.stack.length + 1 := by
  constructor
  · refine ⟨by simp [pushLocal, hwide], ?_, ?_⟩
    · unfold getLocal pushLocal
      rw [if_pos hwide, List.getElem?_append_right (le_refl _)]
      simp
    · unfold getLocal pushLocal
      rw [if_pos hwide, List.getElem?_append_right (by omega)]
      simp
  · intro s' hpush
    unfold OperandStack.push at hpush
    by_cases hc : s.stack.length < s.capacity
    · rw [if_pos hc] at hpush
      cases hpush
      simp
    · rw [if_neg hc] at hpush
      cases hpush

/-- Witness for the amended C4 theorem: `Long 5` in an empty frame and
on a fresh stack of capacity 2. -/
theorem wide_value_local_slots_and_stack_slot_witness :
    (Value.long 5).isWide = true ∧
    pushLocal [] (.long 5) = [.entry (.long 5), .placeHolder] ∧
    getLocal (pushLocal [] (.long 5)) 1 = .error (.invalidOffset 1) ∧
    (OperandStack.mk 2 [.long 5]).stack.length = (OperandStack.new 2).stack.length + 1 := by
  refine ⟨rfl, ?_, ?_, ?_⟩
  · exact (wide_value_local_slots_and_stack_slot [] (.long 5) (OperandStack.new 2) rfl).1.1
  · exact (wide_value_local_slots_and_stack_slot [] (.long 5) (OperandStack.new 2) rfl).1.2.2
  · exact (wide_value_local_slots_and_stack_slot [] (.long 5) (OperandStack.new 2) rfl).2
      (OperandStack.mk 2 [.long 5]) rfl

/-- C5: counterexample. `getfield` on a null receiver does NOT raise a
NullPointerException entering the exception-propagation protocol: it
fails with `InternalError(ValueTypeMissMatch)`, which the `execute`
loop turns into a fatal termination without consulting the exception
table — here even a catch-all handler covering the pc is bypassed. -/
theorem getfield_null_receiver_counterexample :
    execGetField (fun _ _ => .error .valueTypeMissMatch) "f" ⟨2, [.null]⟩ =
      (.error (.internalError .valueTypeMissMatch), ⟨2, []⟩) ∧
    raisesJavaException
      (execGetField (fun _ _ => .error .valueTypeMissMatch) "f" ⟨2, [.null]⟩).1 = false ∧
    handleInstructionResult [⟨0, 4, 9, none⟩] 0
      (execGetField (fun _ _ => .error .valueTypeMissMatch) "f" ⟨2, [.null]⟩) =
      .fatal .valueTypeMissMatch := by
  refine ⟨rfl, rfl, rfl⟩

/-- C5, amended: only `invokevirtual`/`invokeinterface` (via
`invoke_virtual_on_receiver`) raise a `java/lang/NullPointerException`
object, which enters the exception-propagation protocol; `getfield`,
`arraylength` and `aaload` with a null receiver fail with internal VM
errors (`ValueTypeMissMatch` and `ExecuteCodeError("ShouldBeArray")`)
that terminate the interpreter instead. -/
theorem null_receiver_paths (cap : ℕ) (rest : List Value)
    (g : ℕ → String → Except VmError Value) (name : String)
    (len : ℕ → ℕ) (ag : ℕ → ℕ → Except VmError Value) (i : ℤ) (vm : MiniVm) :
    execGetField g name ⟨cap, .null :: rest⟩ =
      (.error (.internalError .valueTypeMissMatch), ⟨cap, rest⟩) ∧
    execArraylength len ⟨cap, .null :: rest⟩ =
      (.error (.internalError (.executeCodeError "ShouldBeArray")), ⟨cap, rest⟩) ∧
    execAaload ag ⟨cap, .int i :: .null :: rest⟩ =
      (.error (.internalError (.executeCodeError "ShouldBeArray")), ⟨cap, rest⟩) ∧
    invokeVirtualOnReceiver vm 0 ⟨cap, .null :: rest⟩ =
      (.error (.exceptionThrown vm.nextHandle), ⟨cap, rest⟩,
        ⟨vm.nextHandle + 1, (vm.nextHandle, "java/lang/NullPointerException") :: vm.classNames⟩) := by
  refine ⟨rfl, rfl, rfl, rfl⟩

/-- C8: refuted (code bug). String interning works — creating the
interned string twice returns the same handle — but
`new_java_lang_class_object` never inserts the constructed mirror into
`class_constant_pool` (the source has no such insert), so creating the
class mirror for the same name twice allocates two distinct objects
(handles 0 and 3 from a fresh state) and the intern table stays empty. -/
theorem class_mirror_interning_broken :
    (newJavaLangStringObject ⟨0, [], []⟩ "hi").1 =
      (newJavaLangStringObject (newJavaLangStringObject ⟨0, [], []⟩ "hi").2 "hi").1 ∧
    (newJavaLangClassObject ⟨0, [], []⟩ "Foo").1 = 0 ∧
    (newJavaLangClassObject (newJavaLangClassObject ⟨0, [], []⟩ "Foo").2 "Foo").1 = 3 ∧
    (newJavaLangClassObject (newJavaLangClassObject ⟨0, [], []⟩ "Foo").2 "Foo").1 ≠
      (newJavaLangClassObject ⟨0, [], []⟩ "Foo").1 ∧
    ((newJavaLangClassObject (newJavaLangClassObject ⟨0, [], []⟩ "Foo").2 "Foo").2).class_constant_pool = [] := by
  refine ⟨rfl, rfl, rfl, by decide, rfl⟩

/-- C9: confirmed. Calling `lookup_class_and_initialize` a second time
with the same name returns the same arena reference and leaves the
method-area state — in particular the log of `<clinit>` invocations —
completely unchanged, so `<clinit>` is never run a second time; and a
(re-entrant) `initialize_class` request that observes any status other
than `Linked` (`Initializing` included) returns with the state
untouched, without recursing. -/
theorem lookup_class_and_initialize_at_most_once (hasClinit : String → Bool)
    (st : MethodAreaState) (n : String) :
    lookupClassAndInitialize hasClinit (lookupClassAndInitialize hasClinit st n).2 n =
      lookupClassAndInitialize hasClinit st n ∧
    (lookupClassAndInitialize hasClinit
        (lookupClassAndInitialize hasClinit st n).2 n).2.clinitRuns =
      (lookupClassAndInitialize hasClinit st n).2.clinitRuns ∧
    ∀ r, statusOf st r ≠ some .linked → initializeClass hasClinit st r = st := by
  obtain ⟨hfind, hl, hk⟩ := lookup_postcondition hasClinit st n
  have h2 := lookup_of_settled hasClinit (lookupClassAndInitialize hasClinit st n).2 n
    (lookupClassAndInitialize hasClinit st n).1 hfind hl hk
  refine ⟨?_, ?_, ?_⟩
  · rw [h2]
  · rw [h2]
  · intro r hr
    unfold initializeClass
    rw [if_neg hr]

/-- Witness for the C9 theorem: a class `A` observed at `Initializing`
is returned untouched, and a double lookup of `A` from an empty method
area agrees with a single one. -/
theorem lookup_class_and_initialize_at_most_once_witness :
    statusOf ⟨[("A", ClassStatus.initializing)], []⟩ 0 ≠ some .linked ∧
    initializeClass (fun _ => true) ⟨[("A", ClassStatus.initializing)], []⟩ 0 =
      ⟨[("A", ClassStatus.initializing)], []⟩ ∧
    lookupClassAndInitialize (fun _ => true)
        (lookupClassAndInitialize (fun _ => true) ⟨[], []⟩ "A").2 "A" =
      lookupClassAndInitialize (fun _ => true) ⟨[], []⟩ "A" :=
  ⟨by decide,
   (lookup_class_and_initialize_at_most_once (fun _ => true)
     ⟨[("A", .initializing)], []⟩ "A").2.2 0 (by decide),
   (lookup_class_and_initialize_at_most_once (fun _ => true) ⟨[], []⟩ "A").1⟩

/-- C10: confirmed. Heap chunks are allocated zero-filled and every
allocation only writes its headers, so each slot of a newly allocated
object or array — before any write to it — reads back as the zero
value of its declared type: the typed readers return `Int 0`, `Long 0`,
`Float 0.0`, `Double 0.0` on a zero word, and the nullable readers
decode the zero word as `Null`; the descriptor dispatch
(`read_value_at_offset`) and the array element dispatch
(`get_field_by_offset`) therefore yield the declared type's zero.
The zero-above-cursor invariant holds of a fresh chunk and is
preserved by both allocators. -/
theorem freshly_allocated_slots_read_zero
    (m : MemoryChunk) (classId totalFields : ℕ) (obj : HeapObject) (m1 : MemoryChunk)
    (element : ArrayElementKind) (len : ℕ) (arr : HeapArray) (m2 : MemoryChunk)
    (i j f : ℕ) (desc : String)
    (hz : zeroAboveUsed m)
    (hobj : allocateObject m classId totalFields = some (obj, m1))
    (harr : allocateArray m element len = some (arr, m2))
    (hi : i < totalFields) (hj : j < len)
    (hf1 : 1 ≤ f) (hf2 : f ≤ totalFields)
    (hdesc : desc ∉ ["B", "C", "D", "F", "I", "J", "S", "Z"]) :
    (∀ cap, zeroAboveUsed (MemoryChunk.new cap)) ∧
    readIntAt m1.mem obj.ptr objectDataOffset obj.totalFields i = .ok (.int 0) ∧
    readLongAt m1.mem obj.ptr objectDataOffset obj.totalFields i = .ok (.long 0) ∧
    readFloatAt m1.mem obj.ptr objectDataOffset obj.totalFields i =
      .ok (.float (some 0)) ∧
    readDoubleAt m1.mem obj.ptr objectDataOffset obj.totalFields i =
      .ok (.double (some 0)) ∧
    readObjectAt m1.mem obj.ptr objectDataOffset obj.totalFields i = .ok .null ∧
    readArrayAt m1.mem obj.ptr objectDataOffset obj.totalFields i = .ok .null ∧
    readValueAtOffset m1.mem obj f "I" = .ok (.int 0) ∧
    readValueAtOffset m1.mem obj f "J" = .ok (.long 0) ∧
    readValueAtOffset m1.mem obj f "F" = .ok (.float (some 0)) ∧
    readValueAtOffset m1.mem obj f "D" = .ok (.double (some 0)) ∧
    readValueAtOffset m1.mem obj f desc = .ok .null ∧
    arrayGetFieldByOffset m2.mem arr j = .ok (zeroValueOfElement arr.element) ∧
    zeroAboveUsed m1 ∧ zeroAboveUsed m2 := by
  have htf : obj.totalFields = totalFields :=
    (allocateObject_spec m classId totalFields obj m1 hobj).2.2.1
  have hword : ∀ k, m1.mem (obj.ptr + objectDataOffset + 8 * k) = 0 :=
    allocateObject_data_word_zero m classId totalFields obj m1 hz hobj
  have hi' : i < obj.totalFields := by omega
  have hf' : f - 1 < obj.totalFields := by omega
  have hsz : arr.arraySize = len :=
    (allocateArray_spec m element len arr m2 harr).2.2.1
  have hj' : j < arr.arraySize := by omega
  have haword : ∀ k, m2.mem (arr.ptr + arrayDataOffset + 8 * k) = 0 :=
    allocateArray_data_word_zero m element len arr m2 hz harr
  refine ⟨?_, ?_, ?_, ?_, ?_, ?_, ?_, ?_, ?_, ?_, ?_, ?_, ?_, ?_, ?_⟩
  · intro cap off _
    rfl
  · exact readIntAt_zero_word _ _ _ _ _ hi' (hword i)
  · exact readLongAt_zero_word _ _ _ _ _ hi' (hword i)
  · exact readFloatAt_zero_word _ _ _ _ _ hi' (hword i)
  · exact readDoubleAt_zero_word _ _ _ _ _ hi' (hword i)
  · exact readObjectAt_zero_word _ _ _ _ _ hi' (hword i)
  · exact readArrayAt_zero_word _ _ _ _ _ hi' (hword i)
  · exact readIntAt_zero_word _ _ _ _ _ hf' (hword (f - 1))
  · exact readLongAt_zero_word _ _ _ _ _ hf' (hword (f - 1))
  · exact readFloatAt_zero_word _ _ _ _ _ hf' (hword (f - 1))
  · exact readDoubleAt_zero_word _ _ _ _ _ hf' (hword (f - 1))
  · simp only [List.mem_cons, List.not_mem_nil, or_false] at hdesc
    push_neg at hdesc
    obtain ⟨hB, hC, hD, hF, hI, hJ, hS, hZ⟩ := hdesc
    unfold readValueAtOffset
    split
    · exact absurd rfl hB
    · exact absurd rfl hC
    · exact absurd rfl hD
    · exact absurd rfl hF
    · exact absurd rfl hI
    · exact absurd rfl hJ
    · exact absurd rfl hS
    · exact absurd rfl hZ
    · exact readReferenceAt_zero_word _ _ _ _ _ hf' (hword (f - 1))
    · split
      · exact readArrayAt_zero_word _ _ _ _ _ hf' (hword (f - 1))
      · exact readObjectAt_zero_word _ _ _ _ _ hf' (hword (f - 1))
  · cases hel : arr.element with
    | primary t =>
      cases t <;>
        simp only [arrayGetFieldByOffset, hel, zeroValueOfElement] <;>
        first
          | exact readIntAt_zero_word _ _ _ _ _ hj' (haword j)
          | exact readLongAt_zero_word _ _ _ _ _ hj' (haword j)
          | exact readFloatAt_zero_word _ _ _ _ _ hj' (haword j)
          | exact readDoubleAt_zero_word _ _ _ _ _ hj' (haword j)
    | classReference =>
      simp only [arrayGetFieldByOffset, hel, zeroValueOfElement]
      exact readObjectAt_zero_word _ _ _ _ _ hj' (haword j)
    | nestedArray =>
      simp only [arrayGetFieldByOffset, hel, zeroValueOfElement]
      exact readArrayAt_zero_word _ _ _ _ _ hj' (haword j)
  · exact allocateObject_zeroAboveUsed m classId totalFields obj m1 hz hobj
  · exact allocateArray_zeroAboveUsed m element len arr m2 hz harr

/-- Witness for the C10 theorem: a 2-field object and an `int[4]` array
allocated from a fresh 1000-byte chunk. -/
theorem freshly_allocated_slots_read_zero_witness :
    zeroAboveUsed (MemoryChunk.new 5) ∧
    readIntAt (newObjectMem (fun _ => 0) 0 7 (size_of_object 2)) 0 objectDataOffset
      2 0 = .ok (.int 0) ∧
    readValueAtOffset (newObjectMem (fun _ => 0) 0 7 (size_of_object 2)) ⟨0, 7, 2⟩ 2
      "Lfoo;" = .ok .null ∧
    arrayGetFieldByOffset (newArrayMem (fun _ => 0) 0 (size_of_array 4) 4)
      ⟨0, .primary .int, 4⟩ 1 = .ok (zeroValueOfElement (.primary .int)) := by
  have h := freshly_allocated_slots_read_zero (MemoryChunk.new 1000) 7 2
    ⟨0, 7, 2⟩
    ⟨1000, 0 + size_of_object 2, newObjectMem (fun _ => 0) 0 7 (size_of_object 2)⟩
    (.primary .int) 4 ⟨0, .primary .int, 4⟩
    ⟨1000, 0 + size_of_array 4, newArrayMem (fun _ => 0) 0 (size_of_array 4) 4⟩
    0 1 2 "Lfoo;" (fun off _ => rfl) rfl rfl (by decide) (by decide) (by decide)
    (by decide) (by decide)
  obtain ⟨hnew, hint, _, _, _, _, _, _, _, _, _, hdesc0, harr0, _, _⟩ := h
  exact ⟨hnew 5, hint, hdesc0, harr0⟩

end LiteJvm
